import Mathlib

set_option maxHeartbeats 1000000

/-!
# Verification of the NewsieAI pay-per-request gateway protocol

Shallow embedding of the protocol core of the `newsie_ai` repository:
the news-retrieval agent's 402 handling (`src/agents/retriv.py`), the
budget policy / settlement / redemption flow of the accountant service,
the test harness's redemption step (`src/main.py`), and the SQLite-backed
user-profile store (`src/database.py`) together with the JSON
serialization of its list-valued columns.
-/

/-! ## Gateway agent (src/agents/retriv.py) -/

/-- A caller-supplied user profile, as the dictionaries passed to
`retriv_run_agent` / `run_accountant_service` (`user_id`, `tier`,
`custom_budget_limit`, `preference`). -/
structure UserProfile where
  user_id : String
  tier : String
  custom_budget_limit : ℚ
  preference : String
deriving DecidableEq

/-- The hardcoded fallback profile built in
`NewsRetrievalAgent._handle_payment_required` when no profile is given. -/
def default_guest : UserProfile :=
  { user_id := "default_guest"
    tier := "standard"
    custom_budget_limit := 1/10
    preference := "user has a neutral preference for news content" }

/-- Exceptions that lower components may raise into the agent:
transport failures of the LLM/MCP invocation, challenge-decode failures,
and payment-layer failures raised by the accountant service. -/
inductive AgentError where
  | transportError (msg : String)
  | decodeError (msg : String)
  | paymentError (msg : String)
deriving DecidableEq

/-- Result of one run of the news-retrieval agent: the value returned to
the caller (or the uncaught exception), together with the list of calls
made to `run_accountant_service`, each recording the payload and the
profile argument that were passed. -/
structure RunOutcome where
  result : Except AgentError String
  accountant_calls : List (String × UserProfile)

/-- Python `str.strip()` on its default (whitespace) character set. -/
def pyIsSpace (c : Char) : Bool :=
  c = ' ' || c = '\t' || c = '\n' || c = '\x0d' || c = '\x0b' || c = '\x0c'

/-- Python `s.strip()`: drop leading and trailing whitespace. -/
def pyStrip (s : String) : String :=
  String.mk (((s.data.dropWhile pyIsSpace).reverse.dropWhile pyIsSpace).reverse)

/-- `NewsRetrievalAgent._handle_payment_required` (src/agents/retriv.py,
lines 153-183): substitutes `default_guest` when `user_profile` is not
provided, then delegates payload and profile to
`run_accountant_service` (abstracted as `accountant`). -/
def handlePaymentRequired (accountant : String → UserProfile → Except AgentError String)
    (payment_info : String) (user_profile : Option UserProfile) : RunOutcome :=
  let prof := user_profile.getD default_guest
  { result := accountant payment_info prof
    accountant_calls := [(payment_info, prof)] }

/-- `NewsRetrievalAgent.run` (src/agents/retriv.py, lines 90-151).
`invoke` abstracts `agent_runnable.ainvoke` (the final message content, or
the exception it raises).  The code sets
`payment_info = agent_response.strip()` and, whenever that string is
non-empty, calls `self._handle_payment_required(payment_info)` — without
forwarding the `user_profile` argument of `run`. -/
def NewsRetrievalAgent_run (invoke : Except AgentError String)
    (accountant : String → UserProfile → Except AgentError String)
    (user_profile : Option UserProfile) : RunOutcome :=
  match invoke with
  | .error e => { result := .error e, accountant_calls := [] }
  | .ok agent_response =>
    let payment_info := pyStrip agent_response
    if payment_info = "" then { result := .ok agent_response, accountant_calls := [] }
    else handlePaymentRequired accountant payment_info none

/-- `retriv_run_agent` (src/agents/retriv.py, lines 200-216): runs the
agent inside `try/finally`; the `finally` block only performs cleanup
(whose own errors are swallowed), so the run's result — exception
included — is returned unchanged. -/
def retriv_run_agent (invoke : Except AgentError String)
    (accountant : String → UserProfile → Except AgentError String)
    (user_profile : Option UserProfile) : RunOutcome :=
  NewsRetrievalAgent_run invoke accountant user_profile

/-! ## Budget Policy Engine (accountant side) -/

/-- A payment challenge decoded from a 402 payment-required payload. -/
structure PaymentChallenge where
  amount : ℚ
  asset : String
  recipient : String
  reference : String
  expiry : Option ℚ
  resourceURL : String
deriving DecidableEq

/-- The Policy Engine's view of a caller profile. -/
structure BudgetProfile where
  identifier : String
  tier : String
  budgetLimit : ℚ
  preference : String
deriving DecidableEq

/-- The caller profile dictionaries map to the Policy Engine's profile
with `custom_budget_limit` as the hard `budgetLimit`. -/
def toBudgetProfile (u : UserProfile) : BudgetProfile :=
  { identifier := u.user_id
    tier := u.tier
    budgetLimit := u.custom_budget_limit
    preference := u.preference }

inductive RejectReason where
  | expired
  | over_budget
  | policy_fit
deriving DecidableEq

inductive Decision where
  | approve
  | reject (reason : RejectReason)
deriving DecidableEq

namespace BudgetPolicy

/-- Whether a challenge's optional expiry is set and already passed. -/
def isExpiredAt (now : ℚ) (c : PaymentChallenge) : Bool :=
  match c.expiry with
  | some t => if t < now then true else false
  | none => false

/-- Modelled from the spec: the Budget Policy Engine's
`decide(challenge, profile)` (spec §4.2); the accountant agent
implementing it is not under src/.  Step 1: expired challenges are
rejected with `expired`.  Step 2: amounts above the hard `budgetLimit`
are rejected with `over_budget`.  Step 3: otherwise approve, except that
an advisory preference sub-step may turn the approval into a
`policy_fit` rejection (never the reverse). -/
def decide (now : ℚ) (advisoryApproves : PaymentChallenge → BudgetProfile → Bool)
    (c : PaymentChallenge) (p : BudgetProfile) : Decision :=
  if isExpiredAt now c then .reject .expired
  else if p.budgetLimit < c.amount then .reject .over_budget
  else if advisoryApproves c p then .approve
  else .reject .policy_fit

end BudgetPolicy

/-! ## Claim C1 -/

/-- An over-budget challenge whose expiry has already passed. -/
def c1Challenge : PaymentChallenge :=
  { amount := 1/2
    asset := "SOL"
    recipient := "X"
    reference := "r1"
    expiry := some 0
    resourceURL := "http://localhost:8000/premium-content" }

/-- A profile whose budget limit is below the challenge amount. -/
def c1Profile : BudgetProfile :=
  { identifier := "main_tester_01"
    tier := "VIP_PLATINUM"
    budgetLimit := 1/10
    preference := "the user is very interested in crypto market" }

/-- C1 (counterexample): an over-budget challenge that is also expired is
rejected with reason `expired`, not `over_budget`, because the expiry
check precedes the budget check in `decide`. -/
theorem c1_counterexample :
    c1Profile.budgetLimit < c1Challenge.amount ∧
    BudgetPolicy.decide 1 (fun _ _ => true) c1Challenge c1Profile ≠ .reject .over_budget ∧
    BudgetPolicy.decide 1 (fun _ _ => true) c1Challenge c1Profile = .reject .expired := by
  refine ⟨by norm_num [c1Profile, c1Challenge], ?_, ?_⟩ <;>
    simp [BudgetPolicy.decide, BudgetPolicy.isExpiredAt, c1Challenge, c1Profile]

/-- C1 (amended): for every challenge whose amount strictly exceeds the
profile's `budgetLimit`, `decide` never approves — regardless of tier,
preference text or the advisory sub-step — and whenever the challenge is
not already expired the rejection reason is `over_budget`. -/
theorem c1_over_budget_never_approved (now : ℚ)
    (advisoryApproves : PaymentChallenge → BudgetProfile → Bool)
    (c : PaymentChallenge) (p : BudgetProfile)
    (h : p.budgetLimit < c.amount) :
    BudgetPolicy.decide now advisoryApproves c p ≠ .approve ∧
    (BudgetPolicy.isExpiredAt now c = false →
      BudgetPolicy.decide now advisoryApproves c p = .reject .over_budget) := by
  unfold BudgetPolicy.decide
  rcases hexp : BudgetPolicy.isExpiredAt now c with _ | _ <;>
    simp [hexp, h]

/-- A well-formed, unexpired, over-budget challenge used as a witness. -/
def c1WitnessChallenge : PaymentChallenge :=
  { amount := 1/2
    asset := "SOL"
    recipient := "X"
    reference := "r1"
    expiry := none
    resourceURL := "http://localhost:8000/premium-content" }

/-- Witness for `c1_over_budget_never_approved` at a concrete input. -/
theorem c1_witness :
    c1Profile.budgetLimit < c1WitnessChallenge.amount ∧
    (BudgetPolicy.decide 1 (fun _ _ => true) c1WitnessChallenge c1Profile ≠ .approve ∧
      (BudgetPolicy.isExpiredAt 1 c1WitnessChallenge = false →
        BudgetPolicy.decide 1 (fun _ _ => true) c1WitnessChallenge c1Profile =
          .reject .over_budget)) :=
  ⟨by norm_num [c1Profile, c1WitnessChallenge],
    c1_over_budget_never_approved 1 (fun _ _ => true) c1WitnessChallenge c1Profile
      (by norm_num [c1Profile, c1WitnessChallenge])⟩

/-! ## Claim C2 -/

/-- C2 (counterexample): when the underlying agent invocation raises a
transport error, `retriv_run_agent` returns that very exception to its
caller — no translation into a four-variant `RedemptionResult` happens at
the boundary (the only `try` in `retriv_run_agent` is a `try/finally`,
which catches nothing). -/
theorem c2_counterexample :
    (retriv_run_agent (.error (.transportError "connection refused"))
        (fun s _ => .ok s) none).result =
      .error (.transportError "connection refused") := rfl

/-- C2 (amended): `retriv_run_agent` propagates lower-component failures
unchanged past its boundary: an exception of the agent invocation is
re-raised as is, and on a non-empty agent response the accountant
service's outcome — exception included — is returned verbatim; only a
whitespace-only response is returned directly as content. -/
theorem c2_error_propagation :
    (∀ (e : AgentError) (accountant : String → UserProfile → Except AgentError String)
        (up : Option UserProfile),
      (retriv_run_agent (.error e) accountant up).result = .error e) ∧
    (∀ (resp : String) (accountant : String → UserProfile → Except AgentError String)
        (up : Option UserProfile), pyStrip resp ≠ "" →
      (retriv_run_agent (.ok resp) accountant up).result =
        accountant (pyStrip resp) default_guest) ∧
    (∀ (resp : String) (accountant : String → UserProfile → Except AgentError String)
        (up : Option UserProfile), pyStrip resp = "" →
      (retriv_run_agent (.ok resp) accountant up).result = .ok resp) := by
  refine ⟨fun e accountant up => rfl, fun resp accountant up h => ?_, fun resp accountant up h => ?_⟩
  · simp [retriv_run_agent, NewsRetrievalAgent_run, handlePaymentRequired, h]
  · simp [retriv_run_agent, NewsRetrievalAgent_run, h]

/-- Witness for `c2_error_propagation` at a concrete input. -/
theorem c2_witness :
    pyStrip "PAYMENT_REJECTED: over budget" ≠ "" ∧
    (retriv_run_agent (.ok "PAYMENT_REJECTED: over budget")
        (fun _ _ => .error (.paymentError "insufficient funds")) none).result =
      (fun (_ : String) (_ : UserProfile) => (.error (.paymentError "insufficient funds") :
        Except AgentError String)) (pyStrip "PAYMENT_REJECTED: over budget") default_guest :=
  ⟨by decide,
    c2_error_propagation.2.1 "PAYMENT_REJECTED: over budget"
      (fun _ _ => .error (.paymentError "insufficient funds")) none (by decide)⟩

/-! ## Claim C3 -/

/-- C3 (code evaluation at the failing input): an ordinary content
response — a plain news summary carrying no 402 payment payload — is
routed to the payment handler: `run` strips the response, finds it
non-empty, and calls `run_accountant_service` on it with the
`default_guest` profile instead of returning the summary as content. -/
theorem c3_content_response_triggers_payment_handler :
    (NewsRetrievalAgent_run (.ok "Apple stock rose on strong earnings news.")
        (fun s _ => .ok s) none).accountant_calls =
      [("Apple stock rose on strong earnings news.", default_guest)] ∧
    (NewsRetrievalAgent_run (.ok "Apple stock rose on strong earnings news.")
        (fun s _ => .ok s) none).accountant_calls ≠ [] := by
  constructor
  · rfl
  · decide

/-! ## Claim C9 -/

/-- C9: the payment decision inputs are independent of the caller's
`user_profile`: `run` calls `_handle_payment_required` without forwarding
`user_profile`, so every call to the accountant service carries the
hardcoded `default_guest` profile (tier `standard`, budget limit `0.1`),
whatever profile the caller passed to `retriv_run_agent`. -/
theorem c9_profile_noninterference :
    (∀ (invoke : Except AgentError String)
        (accountant : String → UserProfile → Except AgentError String)
        (up1 up2 : Option UserProfile),
      retriv_run_agent invoke accountant up1 = retriv_run_agent invoke accountant up2) ∧
    (∀ (invoke : Except AgentError String)
        (accountant : String → UserProfile → Except AgentError String)
        (up : Option UserProfile),
      ((retriv_run_agent invoke accountant up).accountant_calls.all
        fun q => decide (q.2 = default_guest)) = true) ∧
    default_guest.tier = "standard" ∧ default_guest.custom_budget_limit = 1/10 := by
  refine ⟨fun invoke accountant up1 up2 => rfl, fun invoke accountant up => ?_, rfl, rfl⟩
  rcases invoke with e | resp
  · rfl
  · by_cases h : pyStrip resp = "" <;>
      simp [retriv_run_agent, NewsRetrievalAgent_run, handlePaymentRequired, h]

/-! ## Claim C8 -/

/-- C8: a payment-handling invocation with no caller-supplied profile
substitutes the fixed conservative `default_guest` profile (tier
`standard`, budget limit `0.1` SOL) before delegating to the accountant,
and under the Policy Engine that profile never authorizes an unexpired
payment above `0.1` — absence is not unconditional approval. -/
theorem c8_default_profile_substitution :
    (∀ (accountant : String → UserProfile → Except AgentError String) (payment_info : String),
      (handlePaymentRequired accountant payment_info none).accountant_calls =
        [(payment_info, default_guest)]) ∧
    default_guest.tier = "standard" ∧
    default_guest.custom_budget_limit = 1/10 ∧
    (∀ (now : ℚ) (advisoryApproves : PaymentChallenge → BudgetProfile → Bool)
        (c : PaymentChallenge), (1/10 : ℚ) < c.amount →
      BudgetPolicy.isExpiredAt now c = false →
      BudgetPolicy.decide now advisoryApproves c (toBudgetProfile default_guest) =
        .reject .over_budget) := by
  refine ⟨fun accountant payment_info => rfl, rfl, rfl, fun now advisoryApproves c hamt hexp => ?_⟩
  have hlim : (toBudgetProfile default_guest).budgetLimit < c.amount := hamt
  simp [BudgetPolicy.decide, hexp, hlim]

/-- Witness for `c8_default_profile_substitution` at a concrete input. -/
theorem c8_witness :
    (1/10 : ℚ) < c1WitnessChallenge.amount ∧
    BudgetPolicy.isExpiredAt 1 c1WitnessChallenge = false ∧
    BudgetPolicy.decide 1 (fun _ _ => true) c1WitnessChallenge
      (toBudgetProfile default_guest) = .reject .over_budget :=
  ⟨by norm_num [c1WitnessChallenge], rfl,
    c8_default_profile_substitution.2.2.2 1 (fun _ _ => true) c1WitnessChallenge
      (by norm_num [c1WitnessChallenge]) rfl⟩

/-! ## Settlement and redemption flow (Gateway Orchestrator) -/

/-- The four-variant result contract of one gateway invocation. -/
inductive RedemptionResult where
  | content (payload : String)
  | rejected (reason : String)
  | payment_failed (reason : String)
  | verification_failed (reason : String)
deriving DecidableEq

/-- Outcome of submitting the on-chain transfer. -/
inductive SubmitOutcome where
  | accepted
  | networkError (msg : String)
deriving DecidableEq

/-- Outcome of waiting for chain confirmation. -/
inductive ConfirmOutcome where
  | confirmed (txReference : String)
  | timedOut
deriving DecidableEq

/-- Outcome of one redemption attempt, as distinguished by the spec's
`RedemptionError` taxonomy. -/
inductive RedeemOutcome where
  | ok (payload : String)
  | notYetConfirmed
  | invalidReference
  | serverError
deriving DecidableEq

/-- Observable events of one gateway invocation, in order. -/
inductive GEvent where
  | submit
  | awaitConfirmation
  | backoffWait (seconds : Nat)
  | redeem (attempt : Nat)
deriving DecidableEq

/-- Ordering phase of an event: settlement submission strictly precedes
confirmation waiting, which strictly precedes redemption attempts (and
their interleaved backoff waits). -/
def GEvent.phase : GEvent → Nat
  | .submit => 0
  | .awaitConfirmation => 1
  | .backoffWait _ => 2
  | .redeem _ => 2

def isRedeemEvent : GEvent → Bool
  | .redeem _ => true
  | _ => false

/-- Number of redemption attempts recorded in a trace. -/
def redeemCount (evs : List GEvent) : Nat :=
  (evs.filter isRedeemEvent).length

/-- Modelled from the spec: the Orchestrator's bounded redemption retry
loop (spec §4.5, §7); the accountant agent implementing it is not under
src/.  `redeemAt k` is the outcome of the k-th redemption attempt.  Only
`not_yet_confirmed` is retried, after an increasing backoff wait; at most
`remaining` attempts are made. -/
def redeemLoop (redeemAt : Nat → RedeemOutcome) :
    Nat → Nat → RedemptionResult × List GEvent
  | _, 0 => (.verification_failed "not_yet_confirmed", [])
  | attempt, r + 1 =>
    match redeemAt attempt with
    | .ok payload => (.content payload, [.redeem attempt])
    | .invalidReference => (.verification_failed "invalid_reference", [.redeem attempt])
    | .serverError => (.verification_failed "server_error", [.redeem attempt])
    | .notYetConfirmed =>
      if r = 0 then (.verification_failed "not_yet_confirmed", [.redeem attempt])
      else
        let next := redeemLoop redeemAt (attempt + 1) r
        (next.1, .redeem attempt :: .backoffWait attempt :: next.2)

/-- The retry bound: up to 3 redemption attempts. -/
def maxRedeemAttempts : Nat := 3

/-- Modelled from the spec: the settlement-and-redemption phase of one
gateway invocation after the Policy Engine approved the payment (spec
§4.3-§4.5); the accountant agent implementing it is not under src/.
`submit` strictly precedes `awaitConfirmation`, which strictly precedes
`redeem`; a submission error yields `payment_failed(submission_failed)`
with no redemption, a confirmation timeout yields
`payment_failed(timed_out)` with no redemption. -/
def gatewayPayAndRedeem (s : SubmitOutcome) (conf : ConfirmOutcome)
    (redeemAt : Nat → RedeemOutcome) : RedemptionResult × List GEvent :=
  match s with
  | .networkError _ => (.payment_failed "submission_failed", [.submit])
  | .accepted =>
    match conf with
    | .timedOut => (.payment_failed "timed_out", [.submit, .awaitConfirmation])
    | .confirmed _ =>
      let rl := redeemLoop redeemAt 1 maxRedeemAttempts
      (rl.1, .submit :: .awaitConfirmation :: rl.2)

theorem redeemLoop_events_phase (redeemAt : Nat → RedeemOutcome) :
    ∀ (r attempt : Nat) (e : GEvent), e ∈ (redeemLoop redeemAt attempt r).2 → e.phase = 2 := by
  intro r
  induction r with
  | zero =>
    intro attempt e he
    simp [redeemLoop] at he
  | succ r ih =>
    intro attempt e he
    rw [redeemLoop] at he
    rcases h : redeemAt attempt with _ | _ | _ | _ <;> rw [h] at he
    · simp at he
      simp [he, GEvent.phase]
    · by_cases hr : r = 0
      · simp [hr] at he
        simp [he, GEvent.phase]
      · simp [hr] at he
        rcases he with he | he | he
        · simp [he, GEvent.phase]
        · simp [he, GEvent.phase]
        · exact ih (attempt + 1) e he
    · simp at he
      simp [he, GEvent.phase]
    · simp at he
      simp [he, GEvent.phase]

theorem pairwise_of_const_phase (l : List GEvent) (h : ∀ e ∈ l, e.phase = 2) :
    l.Pairwise (fun a b => a.phase ≤ b.phase) := by
  induction l with
  | nil => exact List.Pairwise.nil
  | cons x xs ih =>
    refine List.Pairwise.cons (fun y hy => ?_) (ih fun e he => h e (List.mem_cons_of_mem _ he))
    rw [h x (List.mem_cons_self x xs), h y (List.mem_cons_of_mem _ hy)]

theorem redeemLoop_count_le (redeemAt : Nat → RedeemOutcome) :
    ∀ (r attempt : Nat), redeemCount (redeemLoop redeemAt attempt r).2 ≤ r := by
  intro r
  induction r with
  | zero =>
    intro attempt
    simp [redeemLoop, redeemCount]
  | succ r ih =>
    intro attempt
    rw [redeemLoop]
    rcases h : redeemAt attempt with _ | _ | _ | _ <;>
      simp [redeemCount, List.filter, isRedeemEvent]
    by_cases hr : r = 0
    · simp [hr, redeemCount, List.filter, isRedeemEvent]
    · simp [hr, redeemCount, List.filter, isRedeemEvent]
      have := ih (attempt + 1)
      simp [redeemCount] at this
      omega

/-! ## Claim C5 -/

/-- C5: within one gateway invocation the events are phase-ordered —
settlement submission strictly precedes confirmation waiting, which
strictly precedes every redemption attempt — and when settlement
submission fails (no successful payment outcome), the invocation ends in
`payment_failed(submission_failed)` with no redemption request issued. -/
theorem c5_settlement_ordering (s : SubmitOutcome) (conf : ConfirmOutcome)
    (redeemAt : Nat → RedeemOutcome) :
    (gatewayPayAndRedeem s conf redeemAt).2.Pairwise (fun a b => a.phase ≤ b.phase) ∧
    (∀ msg, s = .networkError msg →
      (gatewayPayAndRedeem s conf redeemAt).1 = .payment_failed "submission_failed" ∧
      redeemCount (gatewayPayAndRedeem s conf redeemAt).2 = 0) := by
  rcases s with _ | msg
  · rcases conf with tx | _
    · constructor
      · show (GEvent.submit :: GEvent.awaitConfirmation ::
            (redeemLoop redeemAt 1 maxRedeemAttempts).2).Pairwise fun a b => a.phase ≤ b.phase
        refine List.Pairwise.cons ?_ (List.Pairwise.cons ?_ ?_)
        · intro y hy
          rcases List.mem_cons.mp hy with hy | hy
          · subst hy
            decide
          · have h2 := redeemLoop_events_phase redeemAt maxRedeemAttempts 1 y hy
            show GEvent.submit.phase ≤ y.phase
            rw [h2]
            decide
        · intro y hy
          have h2 := redeemLoop_events_phase redeemAt maxRedeemAttempts 1 y hy
          show GEvent.awaitConfirmation.phase ≤ y.phase
          rw [h2]
          decide
        · exact pairwise_of_const_phase _ (redeemLoop_events_phase redeemAt maxRedeemAttempts 1)
      · intro m hm
        simp at hm
    · constructor
      · show ([GEvent.submit, GEvent.awaitConfirmation]).Pairwise fun a b => a.phase ≤ b.phase
        decide
      · intro m hm
        simp at hm
  · refine ⟨?_, fun m _ => ⟨rfl, ?_⟩⟩
    · show ([GEvent.submit]).Pairwise fun a b => a.phase ≤ b.phase
      decide
    · simp [gatewayPayAndRedeem, redeemCount, List.filter, isRedeemEvent]

/-- Witness for `c5_settlement_ordering` at a concrete input. -/
theorem c5_witness :
    (gatewayPayAndRedeem (.networkError "connection reset") .timedOut
        (fun _ => .notYetConfirmed)).1 = .payment_failed "submission_failed" ∧
    redeemCount (gatewayPayAndRedeem (.networkError "connection reset") .timedOut
        (fun _ => .notYetConfirmed)).2 = 0 :=
  (c5_settlement_ordering (.networkError "connection reset") .timedOut
    (fun _ => .notYetConfirmed)).2 "connection reset" rfl

/-! ## Claim C6 -/

/-- Every redemption attempt recorded by the retry loop starting at
`attempt` is at least `attempt`, and every attempt before it (from
`attempt` on) returned `not_yet_confirmed`: the loop advances past an
attempt only on that error. -/
theorem redeemLoop_earlier_attempts_nyc (redeemAt : Nat → RedeemOutcome) :
    ∀ (r attempt j : Nat), GEvent.redeem j ∈ (redeemLoop redeemAt attempt r).2 →
      attempt ≤ j ∧ ∀ i, attempt ≤ i → i < j → redeemAt i = .notYetConfirmed := by
  intro r
  induction r with
  | zero =>
    intro attempt j hj
    simp [redeemLoop] at hj
  | succ r ih =>
    intro attempt j hj
    rw [redeemLoop] at hj
    rcases h : redeemAt attempt with _ | _ | _ | _ <;> rw [h] at hj
    · simp at hj
      subst hj
      exact ⟨Nat.le_refl j, fun i hi1 hi2 => absurd hi2 (by omega)⟩
    · by_cases hr : r = 0
      · simp [hr] at hj
        subst hj
        exact ⟨Nat.le_refl j, fun i hi1 hi2 => absurd hi2 (by omega)⟩
      · simp [hr] at hj
        rcases hj with hj | hj
        · subst hj
          exact ⟨Nat.le_refl j, fun i hi1 hi2 => absurd hi2 (by omega)⟩
        · obtain ⟨h1, h2⟩ := ih (attempt + 1) j hj
          refine ⟨by omega, fun i hi1 hi2 => ?_⟩
          by_cases hia : i = attempt
          · rw [hia]
            exact h
          · exact h2 i (by omega) hi2
    · simp at hj
      subst hj
      exact ⟨Nat.le_refl j, fun i hi1 hi2 => absurd hi2 (by omega)⟩
    · simp at hj
      subst hj
      exact ⟨Nat.le_refl j, fun i hi1 hi2 => absurd hi2 (by omega)⟩

/-- C6: at most `maxRedeemAttempts = 3` redemption attempts are ever
made; an attempt is recorded only when every earlier attempt returned
`not_yet_confirmed`, so only `not_yet_confirmed` is retried and
`invalid_reference`, `server_error` (and success) are terminal wherever
in the invocation they occur; and in the scenario where redemption
reports `not_yet_confirmed` twice and then succeeds, the invocation ends
fulfilled with the content after exactly 3 redemption attempts, with
increasing backoff waits recorded between them. -/
theorem c6_redeem_retry_policy :
    (∀ (s : SubmitOutcome) (conf : ConfirmOutcome) (redeemAt : Nat → RedeemOutcome),
      redeemCount (gatewayPayAndRedeem s conf redeemAt).2 ≤ maxRedeemAttempts) ∧
    (∀ (s : SubmitOutcome) (conf : ConfirmOutcome) (redeemAt : Nat → RedeemOutcome)
        (j i : Nat),
      GEvent.redeem j ∈ (gatewayPayAndRedeem s conf redeemAt).2 → 1 ≤ i → i < j →
      redeemAt i = .notYetConfirmed) ∧
    (∀ (tx p : String) (redeemAt : Nat → RedeemOutcome),
      redeemAt 1 = .notYetConfirmed → redeemAt 2 = .notYetConfirmed → redeemAt 3 = .ok p →
      gatewayPayAndRedeem .accepted (.confirmed tx) redeemAt =
        (.content p, [.submit, .awaitConfirmation, .redeem 1, .backoffWait 1,
          .redeem 2, .backoffWait 2, .redeem 3]) ∧
      redeemCount (gatewayPayAndRedeem .accepted (.confirmed tx) redeemAt).2 = 3) := by
  refine ⟨fun s conf redeemAt => ?_, fun s conf redeemAt j i hj hi1 hi2 => ?_,
    fun tx p redeemAt h1 h2 h3 => ?_⟩
  · rcases s with _ | msg
    · rcases conf with tx | _
      · have hc : redeemCount (gatewayPayAndRedeem .accepted (.confirmed tx) redeemAt).2 =
            redeemCount (redeemLoop redeemAt 1 maxRedeemAttempts).2 := by
          simp [gatewayPayAndRedeem, redeemCount, List.filter, isRedeemEvent]
        rw [hc]
        exact redeemLoop_count_le redeemAt maxRedeemAttempts 1
      · simp [gatewayPayAndRedeem, redeemCount, List.filter, isRedeemEvent, maxRedeemAttempts]
    · simp [gatewayPayAndRedeem, redeemCount, List.filter, isRedeemEvent, maxRedeemAttempts]
  · rcases s with _ | msg
    · rcases conf with tx | _
      · have hmem : GEvent.redeem j ∈ (redeemLoop redeemAt 1 maxRedeemAttempts).2 := by
          simpa [gatewayPayAndRedeem] using hj
        exact (redeemLoop_earlier_attempts_nyc redeemAt maxRedeemAttempts 1 j hmem).2 i hi1 hi2
      · simp [gatewayPayAndRedeem] at hj
    · simp [gatewayPayAndRedeem] at hj
  · have hloop : redeemLoop redeemAt 1 maxRedeemAttempts =
        (.content p, [.redeem 1, .backoffWait 1, .redeem 2, .backoffWait 2, .redeem 3]) := by
      rw [show maxRedeemAttempts = 2 + 1 from rfl, redeemLoop, h1]
      rw [show (2 : Nat) = 1 + 1 from rfl]
      simp only [Nat.add_eq_zero, and_false, if_false, one_ne_zero]
      rw [redeemLoop, h2]
      simp only [Nat.add_eq_zero, and_false, if_false, one_ne_zero]
      rw [redeemLoop, h3]
    constructor
    · simp [gatewayPayAndRedeem, hloop]
    · simp [gatewayPayAndRedeem, hloop, redeemCount, List.filter, isRedeemEvent]

/-- The witness redemption oracle: `not_yet_confirmed` twice, then
success. -/
def c6RedeemAt : Nat → RedeemOutcome :=
  fun k => if k < 3 then .notYetConfirmed else .ok "premium content"

/-- Witness for `c6_redeem_retry_policy` at a concrete input. -/
theorem c6_witness :
    (GEvent.redeem 3 ∈ (gatewayPayAndRedeem .accepted (.confirmed "5x7TxHash") c6RedeemAt).2 ∧
      (1 : Nat) ≤ 2 ∧ (2 : Nat) < 3 ∧
      c6RedeemAt 1 = .notYetConfirmed ∧ c6RedeemAt 2 = .notYetConfirmed ∧
      c6RedeemAt 3 = .ok "premium content") ∧
    c6RedeemAt 2 = .notYetConfirmed ∧
    (gatewayPayAndRedeem .accepted (.confirmed "5x7TxHash") c6RedeemAt =
      (.content "premium content", [.submit, .awaitConfirmation, .redeem 1, .backoffWait 1,
        .redeem 2, .backoffWait 2, .redeem 3]) ∧
    redeemCount (gatewayPayAndRedeem .accepted (.confirmed "5x7TxHash") c6RedeemAt).2 = 3) :=
  ⟨⟨by decide, by decide, by decide, rfl, rfl, rfl⟩,
    c6_redeem_retry_policy.2.1 .accepted (.confirmed "5x7TxHash") c6RedeemAt 3 2
      (by decide) (by decide) (by decide),
    c6_redeem_retry_policy.2.2 "5x7TxHash" "premium content" c6RedeemAt rfl rfl rfl⟩

/-! ## Claim C4: Payment Challenge Codec -/

/-- Shape of a JSON field value as far as the codec inspects it:
a number, a string, or anything else. -/
inductive JField where
  | num (q : ℚ)
  | str (s : String)
  | other
deriving DecidableEq

/-- A raw 402 payload: an ordered list of fields keyed by name (the first
occurrence of a key is the one a JSON object lookup yields). -/
abbrev RawPayload := List (String × JField)

inductive DecodeError where
  | malformed (field : String)
deriving DecidableEq

/-- The codec's read of the optional `expiry` field. -/
def decodeExpiry (raw : RawPayload) : Option ℚ :=
  match raw.lookup "expiry" with
  | some (.num t) => some t
  | _ => none

/-- Modelled from the spec: the Payment Challenge Codec's
`decode(rawPayload)` (spec §4.1); the accountant-side codec is not under
src/.  Fails with `DecodeError` when any of `amount`, `asset`,
`recipient`, `reference` is missing or malformed (non-numeric amount,
empty recipient); tolerates unknown fields and field order; never
substitutes defaults for required fields. -/
def decode (raw : RawPayload) (resourceURL : String) : Except DecodeError PaymentChallenge :=
  match raw.lookup "amount" with
  | some (.num a) =>
    match raw.lookup "asset" with
    | some (.str assetId) =>
      match raw.lookup "recipient" with
      | some (.str recip) =>
        if recip = "" then .error (.malformed "recipient")
        else
          match raw.lookup "reference" with
          | some (.str refr) =>
            .ok { amount := a, asset := assetId, recipient := recip, reference := refr,
                  expiry := decodeExpiry raw, resourceURL := resourceURL }
          | _ => .error (.malformed "reference")
      | _ => .error (.malformed "recipient")
    | _ => .error (.malformed "asset")
  | _ => .error (.malformed "amount")

/-- The four required fields are present and well-formed: numeric
`amount`, string `asset`, non-empty string `recipient`, string
`reference`. -/
def requiredFieldsOk (raw : RawPayload) : Prop :=
  (∃ a, raw.lookup "amount" = some (.num a)) ∧
  (∃ s, raw.lookup "asset" = some (.str s)) ∧
  (∃ r, raw.lookup "recipient" = some (.str r) ∧ r ≠ "") ∧
  (∃ t, raw.lookup "reference" = some (.str t))

/-- C4: `decode` succeeds exactly when all four required fields are
present and well-formed — otherwise it returns a `DecodeError`, never a
partial or default-filled challenge: on success every required field of
the challenge is the payload's own value.  The outcome depends only on
the key lookups, hence not on field order or extra/unknown fields. -/
theorem c4_decode_contract :
    (∀ (raw : RawPayload) (url : String),
      (∃ ch, decode raw url = .ok ch) ↔ requiredFieldsOk raw) ∧
    (∀ (raw : RawPayload) (url : String), ¬ requiredFieldsOk raw →
      ∃ e, decode raw url = .error e) ∧
    (∀ (raw : RawPayload) (url : String) (ch : PaymentChallenge), decode raw url = .ok ch →
      raw.lookup "amount" = some (.num ch.amount) ∧
      raw.lookup "asset" = some (.str ch.asset) ∧
      raw.lookup "recipient" = some (.str ch.recipient) ∧ ch.recipient ≠ "" ∧
      raw.lookup "reference" = some (.str ch.reference) ∧
      ch.resourceURL = url) ∧
    (∀ (raw raw' : RawPayload) (url : String),
      raw.lookup "amount" = raw'.lookup "amount" →
      raw.lookup "asset" = raw'.lookup "asset" →
      raw.lookup "recipient" = raw'.lookup "recipient" →
      raw.lookup "reference" = raw'.lookup "reference" →
      raw.lookup "expiry" = raw'.lookup "expiry" →
      decode raw url = decode raw' url) := by
  have hok : ∀ (raw : RawPayload) (url : String) (ch : PaymentChallenge),
      decode raw url = .ok ch →
      raw.lookup "amount" = some (.num ch.amount) ∧
      raw.lookup "asset" = some (.str ch.asset) ∧
      raw.lookup "recipient" = some (.str ch.recipient) ∧ ch.recipient ≠ "" ∧
      raw.lookup "reference" = some (.str ch.reference) ∧
      ch.resourceURL = url := by
    intro raw url ch h
    unfold decode at h
    split at h <;> try exact Except.noConfusion h
    rename_i a hamount
    split at h <;> try exact Except.noConfusion h
    rename_i sa hasset
    split at h <;> try exact Except.noConfusion h
    rename_i sr hrecip
    split at h <;> try exact Except.noConfusion h
    rename_i hr0
    split at h <;> try exact Except.noConfusion h
    rename_i st href
    simp only [Except.ok.injEq] at h
    subst h
    exact ⟨hamount, hasset, hrecip, hr0, href, rfl⟩
  have hsucc : ∀ (raw : RawPayload) (url : String), requiredFieldsOk raw →
      ∃ ch, decode raw url = .ok ch := by
    intro raw url hreq
    obtain ⟨⟨a, ham⟩, ⟨sa, has⟩, ⟨sr, hre, hr0⟩, ⟨st, href⟩⟩ := hreq
    refine ⟨⟨a, sa, sr, st, decodeExpiry raw, url⟩, ?_⟩
    simp [decode, ham, has, hre, href, hr0]
  refine ⟨fun raw url => ⟨fun ⟨ch, h⟩ => ?_, hsucc raw url⟩, fun raw url hreq => ?_,
    hok, fun raw raw' url h1 h2 h3 h4 h5 => ?_⟩
  · obtain ⟨ham, has, hre, hr0, href, _⟩ := hok raw url ch h
    exact ⟨⟨_, ham⟩, ⟨_, has⟩, ⟨_, hre, hr0⟩, ⟨_, href⟩⟩
  · rcases hd : decode raw url with e | ch
    · exact ⟨e, rfl⟩
    · obtain ⟨ham, has, hre, hr0, href, _⟩ := hok raw url ch hd
      exact absurd ⟨⟨_, ham⟩, ⟨_, has⟩, ⟨_, hre, hr0⟩, ⟨_, href⟩⟩ hreq
  · unfold decode decodeExpiry
    rw [h1, h2, h3, h4, h5]

/-- Witness payload: required fields in shuffled order plus an unknown
extra field. -/
def c4Payload : RawPayload :=
  [("note", .other), ("reference", .str "r1"), ("amount", .num (1/20)),
    ("asset", .str "SOL"), ("recipient", .str "X")]

/-- A payload missing `recipient`. -/
def c4BadPayload : RawPayload :=
  [("amount", .num (1/20)), ("asset", .str "SOL"), ("reference", .str "r1")]

/-- Witness for `c4_decode_contract` at concrete inputs. -/
theorem c4_witness :
    requiredFieldsOk c4Payload ∧
    (∃ ch, decode c4Payload "http://localhost:8000/premium-content" = .ok ch) ∧
    ¬ requiredFieldsOk c4BadPayload ∧
    (∃ e, decode c4BadPayload "http://localhost:8000/premium-content" = .error e) := by
  have hreq : requiredFieldsOk c4Payload :=
    ⟨⟨1/20, rfl⟩, ⟨"SOL", rfl⟩, ⟨"X", rfl, by decide⟩, ⟨"r1", rfl⟩⟩
  have hbad : ¬ requiredFieldsOk c4BadPayload := by
    rintro ⟨-, -, ⟨r, hre, -⟩, -⟩
    simp [c4BadPayload, List.lookup] at hre
  exact ⟨hreq, (c4_decode_contract.1 c4Payload "http://localhost:8000/premium-content").mpr hreq,
    hbad, c4_decode_contract.2.1 c4BadPayload "http://localhost:8000/premium-content" hbad⟩

/-! ## Claim C7: redemption request (src/main.py, lines 193-208) -/

/-- An HTTP request as issued by the harness: target URL and headers. -/
structure HttpRequest where
  url : String
  headers : List (String × String)
deriving DecidableEq

/-- An HTTP response: status code and body text. -/
structure HttpResponse where
  status : Nat
  body : String
deriving DecidableEq

/-- Outcome of the redemption step of `test_accountant_agent`. -/
inductive RedeemStepResult where
  | contentRetrieved (body : String)
  | verificationFailed (text : String)
deriving DecidableEq

/-- The redemption request built in `test_accountant_agent`
(src/main.py line 202): `requests.get(server_url,
headers=Authorization Bearer tx_hash)` — the same original
`server_url`, with the settlement transaction hash as bearer
credential. -/
def redeemRequest (server_url tx_hash : String) : HttpRequest :=
  { url := server_url, headers := [("Authorization", "Bearer " ++ tx_hash)] }

/-- Response handling of the redemption step (src/main.py lines
204-208): status 200 yields the content payload, any other status is a
verification failure carrying the response text. -/
def handleRedeemResponse (resp : HttpResponse) : RedeemStepResult :=
  if resp.status = 200 then .contentRetrieved resp.body
  else .verificationFailed resp.body

/-- C7: redemption re-issues the request to the same original resource
URL with the transaction reference attached as `Authorization: Bearer
<txReference>`; a 200 response yields the content payload, any
non-success status yields a redemption failure. -/
theorem c7_redemption_request_shape :
    (∀ (url tx : String),
      (redeemRequest url tx).url = url ∧
      (redeemRequest url tx).headers = [("Authorization", "Bearer " ++ tx)]) ∧
    (∀ resp : HttpResponse, resp.status = 200 →
      handleRedeemResponse resp = .contentRetrieved resp.body) ∧
    (∀ resp : HttpResponse, resp.status ≠ 200 →
      handleRedeemResponse resp = .verificationFailed resp.body) := by
  refine ⟨fun url tx => ⟨rfl, rfl⟩, fun resp h => ?_, fun resp h => ?_⟩
  · simp [handleRedeemResponse, h]
  · simp [handleRedeemResponse, h]

/-- Witness for `c7_redemption_request_shape` at concrete inputs. -/
theorem c7_witness :
    (402 : Nat) ≠ 200 ∧
    handleRedeemResponse { status := 402, body := "Payment Required" } =
      .verificationFailed "Payment Required" :=
  ⟨by decide,
    c7_redemption_request_shape.2.2 { status := 402, body := "Payment Required" } (by decide)⟩

/-! ## JSON serialization of list-valued profile columns

`src/database.py` stores `preferred_notification_times` and
`content_preferences` as TEXT columns holding `json.dumps(list)` and
reads them back with `json.loads`.  The encoder below mirrors Python's
`json.dumps` with its default options (`ensure_ascii=True`, default
separators) on a list of strings; the decoder mirrors the strict-mode
`json.loads` scanner on the grammar such dumps produce. -/

/-- Lowercase hex digit, as used by Python's `\uXXXX` escapes. -/
def hexDigitChar (d : Nat) : Char :=
  if d < 10 then Char.ofNat (48 + d) else Char.ofNat (87 + d)

/-- Four lowercase hex digits of `n` (for `n < 0x10000`). -/
def toHex4 (n : Nat) : List Char :=
  [hexDigitChar (n / 4096 % 16), hexDigitChar (n / 256 % 16), hexDigitChar (n / 16 % 16),
    hexDigitChar (n % 16)]

/-- `json.dumps` escaping of one character under `ensure_ascii=True`:
backslash, quote and the five short escapes first, printable ASCII
unescaped, everything else as `\uXXXX` (with a surrogate pair above
`0xFFFF`). -/
def escapeChar (c : Char) : List Char :=
  if c = '\\' then [ '\\', '\\' ]
  else if c = '"' then [ '\\', '"' ]
  else if c = '\x08' then [ '\\', 'b' ]
  else if c = '\x0c' then [ '\\', 'f' ]
  else if c = '\n' then [ '\\', 'n' ]
  else if c = '\x0d' then [ '\\', 'r' ]
  else if c = '\t' then [ '\\', 't' ]
  else if 32 ≤ c.toNat ∧ c.toNat ≤ 126 then [c]
  else if c.toNat < 65536 then '\\' :: 'u' :: toHex4 c.toNat
  else ('\\' :: 'u' :: toHex4 (0xD800 + (c.toNat - 0x10000) / 0x400)) ++
    ('\\' :: 'u' :: toHex4 (0xDC00 + (c.toNat - 0x10000) % 0x400))

/-- `json.dumps` of one string: quoted, characters escaped. -/
def encodeStrChars (s : String) : List Char :=
  '"' :: (s.data.flatMap escapeChar ++ [ '"' ])

/-- Separator-plus-element, as the default `", "` item separator emits. -/
def sepItemChars (s : String) : List Char :=
  ',' :: ' ' :: encodeStrChars s

/-- Body of a dumped JSON array of strings (between the brackets). -/
def encodeArrBody : List String → List Char
  | [] => []
  | s :: t => encodeStrChars s ++ t.flatMap sepItemChars

/-- `json.dumps` (default options) of a list of strings. -/
def dumpsStrList (l : List String) : String :=
  String.mk ('[' :: (encodeArrBody l ++ [ ']' ]))

/-- Value of one hex digit character (either case), as accepted by the
`json.loads` scanner. -/
def hexVal (c : Char) : Option Nat :=
  if '0' ≤ c ∧ c ≤ '9' then some (c.toNat - 48)
  else if 'a' ≤ c ∧ c ≤ 'f' then some (c.toNat - 87)
  else if 'A' ≤ c ∧ c ≤ 'F' then some (c.toNat - 55)
  else none

/-- Value of a four-hex-digit escape. -/
def hexQuad (h1 h2 h3 h4 : Char) : Option Nat :=
  (hexVal h1).bind fun x1 => (hexVal h2).bind fun x2 => (hexVal h3).bind fun x3 =>
    (hexVal h4).map fun x4 => ((x1 * 16 + x2) * 16 + x3) * 16 + x4

/-- Prepend a decoded character to a string-scan result. -/
def mapCons (c : Char) (o : Option (List Char × List Char)) : Option (List Char × List Char) :=
  o.map fun p => (c :: p.1, p.2)

mutual

/-- The `json.loads` string scanner (strict mode), after the opening
quote: returns the decoded characters and the input after the closing
quote.  Raw control characters are rejected; escapes are decoded;
`\uXXXX` high surrogates must be followed by a low surrogate escape
(the only forms `dumps` of scalar-valued strings emits). -/
def parseStrBody : List Char → Option (List Char × List Char)
  | [] => none
  | c :: rest =>
    if c = '"' then some ([], rest)
    else if c = '\\' then parseStrEsc rest
    else if c.toNat < 32 then none
    else mapCons c (parseStrBody rest)

/-- Scan of one backslash escape. -/
def parseStrEsc : List Char → Option (List Char × List Char)
  | '"' :: r => mapCons '"' (parseStrBody r)
  | '\\' :: r => mapCons '\\' (parseStrBody r)
  | '/' :: r => mapCons '/' (parseStrBody r)
  | 'b' :: r => mapCons '\x08' (parseStrBody r)
  | 'f' :: r => mapCons '\x0c' (parseStrBody r)
  | 'n' :: r => mapCons '\n' (parseStrBody r)
  | 'r' :: r => mapCons '\x0d' (parseStrBody r)
  | 't' :: r => mapCons '\t' (parseStrBody r)
  | 'u' :: h1 :: h2 :: h3 :: h4 :: r =>
    match hexQuad h1 h2 h3 h4 with
    | some n =>
      if n < 0xD800 ∨ 0xE000 ≤ n then mapCons (Char.ofNat n) (parseStrBody r)
      else if n < 0xDC00 then parseStrLowSurro n r
      else none
    | none => none
  | _ => none

/-- Scan of the low-surrogate escape completing a `\uXXXX` pair. -/
def parseStrLowSurro (n : Nat) : List Char → Option (List Char × List Char)
  | '\\' :: 'u' :: g1 :: g2 :: g3 :: g4 :: r2 =>
    match hexQuad g1 g2 g3 g4 with
    | some m =>
      if 0xDC00 ≤ m ∧ m < 0xE000 then
        mapCons (Char.ofNat (0x10000 + (n - 0xD800) * 0x400 + (m - 0xDC00))) (parseStrBody r2)
      else none
    | none => none
  | _ => none

end

/-- JSON whitespace accepted between tokens by `json.loads`. -/
def isJsonWs (c : Char) : Bool :=
  c = ' ' || c = '\t' || c = '\n' || c = '\x0d'

/-- Skip JSON whitespace. -/
def jsonSkipWs (l : List Char) : List Char :=
  l.dropWhile isJsonWs

/-- Scan of the remainder of a string array after one element: either the
closing bracket or a comma followed by the next string element.  `fuel`
bounds the number of elements (any value at least the element count
works). -/
def parseMoreItems : Nat → List Char → Option (List String × List Char)
  | 0, _ => none
  | fuel + 1, l =>
    match jsonSkipWs l with
    | ']' :: r => some ([], r)
    | ',' :: r =>
      match jsonSkipWs r with
      | '"' :: r2 =>
        match parseStrBody r2 with
        | some (cs, r3) => (parseMoreItems fuel r3).map fun p => (String.mk cs :: p.1, p.2)
        | none => none
      | _ => none
    | _ => none

/-- Scan of a JSON array of strings: `[` then either `]` or a first
string element followed by `parseMoreItems`. -/
def parseStrArray (l : List Char) : Option (List String × List Char) :=
  match jsonSkipWs l with
  | '[' :: r =>
    match jsonSkipWs r with
    | ']' :: r2 => some ([], r2)
    | '"' :: r2 =>
      match parseStrBody r2 with
      | some (cs, r3) => (parseMoreItems (r3.length + 1) r3).map fun p => (String.mk cs :: p.1, p.2)
      | none => none
    | _ => none
  | _ => none

/-- `json.loads` on the stored column text, expecting a JSON array of
strings and no trailing garbage. -/
def loadsStrList (s : String) : Option (List String) :=
  match parseStrArray s.data with
  | some (l, rest) => if jsonSkipWs rest = [] then some l else none
  | none => none

/-! ### Round-trip of the string scanner against the escaper -/

theorem hexVal_hexDigitChar : ∀ d < 16, hexVal (hexDigitChar d) = some d := by decide

theorem hexQuad_toHex4 (n : Nat) (h : n < 65536) :
    hexQuad (hexDigitChar (n / 4096 % 16)) (hexDigitChar (n / 256 % 16))
      (hexDigitChar (n / 16 % 16)) (hexDigitChar (n % 16)) = some n := by
  rw [hexQuad, hexVal_hexDigitChar _ (by omega), hexVal_hexDigitChar _ (by omega),
    hexVal_hexDigitChar _ (by omega), hexVal_hexDigitChar _ (by omega)]
  simp only [Option.some_bind, Option.map_some']
  congr 1
  omega

theorem char_toNat_valid (c : Char) :
    c.toNat < 0xD800 ∨ (0xE000 ≤ c.toNat ∧ c.toNat < 0x110000) := by
  have h := c.valid
  rcases h with h | ⟨h1, h2⟩
  · left
    exact h
  · right
    exact ⟨h1, h2⟩

theorem parseStrBody_closing (rest : List Char) :
    parseStrBody ('"' :: rest) = some ([], rest) := by
  rw [parseStrBody, if_pos rfl]

theorem parseStrBody_esc_quote (rest : List Char) :
    parseStrBody ('\\' :: '"' :: rest) = mapCons '"' (parseStrBody rest) := by
  rw [parseStrBody, if_neg (by decide : ¬ ('\\' : Char) = '"'), if_pos rfl, parseStrEsc]

theorem parseStrBody_esc_backslash (rest : List Char) :
    parseStrBody ('\\' :: '\\' :: rest) = mapCons '\\' (parseStrBody rest) := by
  rw [parseStrBody, if_neg (by decide : ¬ ('\\' : Char) = '"'), if_pos rfl, parseStrEsc]

theorem parseStrBody_esc_b (rest : List Char) :
    parseStrBody ('\\' :: 'b' :: rest) = mapCons '\x08' (parseStrBody rest) := by
  rw [parseStrBody, if_neg (by decide : ¬ ('\\' : Char) = '"'), if_pos rfl, parseStrEsc]

theorem parseStrBody_esc_f (rest : List Char) :
    parseStrBody ('\\' :: 'f' :: rest) = mapCons '\x0c' (parseStrBody rest) := by
  rw [parseStrBody, if_neg (by decide : ¬ ('\\' : Char) = '"'), if_pos rfl, parseStrEsc]

theorem parseStrBody_esc_n (rest : List Char) :
    parseStrBody ('\\' :: 'n' :: rest) = mapCons '\n' (parseStrBody rest) := by
  rw [parseStrBody, if_neg (by decide : ¬ ('\\' : Char) = '"'), if_pos rfl, parseStrEsc]

theorem parseStrBody_esc_r (rest : List Char) :
    parseStrBody ('\\' :: 'r' :: rest) = mapCons '\x0d' (parseStrBody rest) := by
  rw [parseStrBody, if_neg (by decide : ¬ ('\\' : Char) = '"'), if_pos rfl, parseStrEsc]

theorem parseStrBody_esc_t (rest : List Char) :
    parseStrBody ('\\' :: 't' :: rest) = mapCons '\t' (parseStrBody rest) := by
  rw [parseStrBody, if_neg (by decide : ¬ ('\\' : Char) = '"'), if_pos rfl, parseStrEsc]

theorem parseStrBody_plain (c : Char) (rest : List Char)
    (h1 : c ≠ '"') (h2 : c ≠ '\\') (h3 : ¬ c.toNat < 32) :
    parseStrBody (c :: rest) = mapCons c (parseStrBody rest) := by
  rw [parseStrBody, if_neg h1, if_neg h2, if_neg h3]

theorem parseStrBody_u (n : Nat) (rest : List Char) (h16 : n < 65536)
    (h : n < 0xD800 ∨ 0xE000 ≤ n) :
    parseStrBody ('\\' :: 'u' :: (toHex4 n ++ rest)) =
      mapCons (Char.ofNat n) (parseStrBody rest) := by
  rw [parseStrBody, if_neg (by decide : ¬ ('\\' : Char) = '"'), if_pos rfl]
  rw [toHex4]
  simp only [List.cons_append, List.nil_append]
  rw [parseStrEsc, hexQuad_toHex4 n h16]
  simp only []
  rw [if_pos h]

theorem parseStrBody_surro (cp : Nat) (rest : List Char)
    (hlo : 65536 ≤ cp) (hhi : cp < 1114112) :
    parseStrBody ('\\' :: 'u' :: (toHex4 (0xD800 + (cp - 65536) / 1024) ++
      ('\\' :: 'u' :: (toHex4 (0xDC00 + (cp - 65536) % 1024) ++ rest)))) =
      mapCons (Char.ofNat cp) (parseStrBody rest) := by
  have hdiv : (cp - 65536) / 1024 < 1024 := by omega
  have hmod : (cp - 65536) % 1024 < 1024 := by omega
  rw [parseStrBody, if_neg (by decide : ¬ ('\\' : Char) = '"'), if_pos rfl]
  rw [toHex4, toHex4]
  simp only [List.cons_append, List.nil_append]
  rw [parseStrEsc, hexQuad_toHex4 _ (by omega)]
  simp only []
  rw [if_neg (by omega), if_pos (by omega)]
  rw [parseStrLowSurro, hexQuad_toHex4 _ (by omega)]
  simp only []
  rw [if_pos (by omega)]
  have harith : 65536 + (0xD800 + (cp - 65536) / 1024 - 0xD800) * 1024 +
      (0xDC00 + (cp - 65536) % 1024 - 0xDC00) = cp := by omega
  rw [harith]

/-- One escaped character scans back to itself. -/
theorem parse_escapeChar (c : Char) (rest : List Char) :
    parseStrBody (escapeChar c ++ rest) = mapCons c (parseStrBody rest) := by
  by_cases h1 : c = '\\'
  · subst h1
    exact parseStrBody_esc_backslash rest
  by_cases h2 : c = '"'
  · subst h2
    exact parseStrBody_esc_quote rest
  by_cases h3 : c = '\x08'
  · subst h3
    exact parseStrBody_esc_b rest
  by_cases h4 : c = '\x0c'
  · subst h4
    exact parseStrBody_esc_f rest
  by_cases h5 : c = '\n'
  · subst h5
    exact parseStrBody_esc_n rest
  by_cases h6 : c = '\x0d'
  · subst h6
    exact parseStrBody_esc_r rest
  by_cases h7 : c = '\t'
  · subst h7
    exact parseStrBody_esc_t rest
  by_cases h8 : 32 ≤ c.toNat ∧ c.toNat ≤ 126
  · rw [escapeChar, if_neg h1, if_neg h2, if_neg h3, if_neg h4, if_neg h5, if_neg h6,
      if_neg h7, if_pos h8]
    exact parseStrBody_plain c rest h2 h1 (by omega)
  by_cases h9 : c.toNat < 65536
  · rw [escapeChar, if_neg h1, if_neg h2, if_neg h3, if_neg h4, if_neg h5, if_neg h6,
      if_neg h7, if_neg h8, if_pos h9]
    simp only [List.cons_append]
    rw [parseStrBody_u c.toNat rest h9 ((char_toNat_valid c).imp id And.left),
      Char.ofNat_toNat]
  · rw [escapeChar, if_neg h1, if_neg h2, if_neg h3, if_neg h4, if_neg h5, if_neg h6,
      if_neg h7, if_neg h8, if_neg h9]
    have hv := (char_toNat_valid c).resolve_left (by omega)
    simp only [List.cons_append, List.append_assoc, List.nil_append]
    rw [parseStrBody_surro c.toNat rest (by omega) (by omega), Char.ofNat_toNat]

/-- The escaped body of a string followed by its closing quote scans back
to the original characters. -/
theorem parse_encodeBody (cs : List Char) (rest : List Char) :
    parseStrBody (cs.flatMap escapeChar ++ ('"' :: rest)) = some (cs, rest) := by
  induction cs with
  | nil =>
    simp only [List.flatMap_nil, List.nil_append]
    exact parseStrBody_closing rest
  | cons c cs ih =>
    simp only [List.flatMap_cons, List.append_assoc]
    rw [parse_escapeChar, ih]
    rfl

theorem jsonSkipWs_lbrack (l : List Char) : jsonSkipWs ('[' :: l) = '[' :: l := rfl

theorem jsonSkipWs_rbrack (l : List Char) : jsonSkipWs (']' :: l) = ']' :: l := rfl

theorem jsonSkipWs_comma (l : List Char) : jsonSkipWs (',' :: l) = ',' :: l := rfl

theorem jsonSkipWs_dquote (l : List Char) : jsonSkipWs ('"' :: l) = '"' :: l := rfl

theorem jsonSkipWs_space (l : List Char) : jsonSkipWs (' ' :: l) = jsonSkipWs l := rfl

theorem jsonSkipWs_nil : jsonSkipWs [] = [] := rfl

/-- Each separator-plus-element occupies at least one character, so the
remaining input is always long enough to serve as element fuel. -/
theorem length_le_flatMap_sepItemChars (t : List String) :
    t.length ≤ (t.flatMap sepItemChars).length := by
  induction t with
  | nil => simp
  | cons u t ih =>
    simp only [List.flatMap_cons, List.length_cons, List.length_append]
    have : 1 ≤ (sepItemChars u).length := by
      simp [sepItemChars]
    omega

/-- Rebuilding a string from its character data is the identity. -/
theorem String_mk_data (s : String) : String.mk s.data = s := by
  cases s
  rfl

/-- The encoded tail of an array (separators and elements, then the
closing bracket) scans back to the original elements, given enough
fuel. -/
theorem parseMoreItems_encode (t : List String) :
    ∀ (fuel : Nat) (rest : List Char), t.length < fuel →
      parseMoreItems fuel (t.flatMap sepItemChars ++ (']' :: rest)) = some (t, rest) := by
  induction t with
  | nil =>
    intro fuel rest hf
    match fuel, hf with
    | f + 1, _ =>
      rw [parseMoreItems]
      simp only [List.flatMap_nil, List.nil_append, jsonSkipWs_rbrack]
  | cons u t ih =>
    intro fuel rest hf
    match fuel, hf with
    | f + 1, hf =>
      rw [parseMoreItems]
      simp only [List.flatMap_cons, sepItemChars, encodeStrChars, List.cons_append,
        List.nil_append, List.append_assoc, List.singleton_append, jsonSkipWs_comma]
      rw [jsonSkipWs_space, jsonSkipWs_dquote]
      simp only []
      rw [parse_encodeBody]
      simp only []
      rw [ih f rest (by simp only [List.length_cons] at hf; omega)]
      simp only [Option.map_some', String_mk_data]

/-- A dumped array of strings scans back to the original list. -/
theorem parseStrArray_dumps (l : List String) :
    parseStrArray ('[' :: (encodeArrBody l ++ [ ']' ])) = some (l, []) := by
  cases l with
  | nil => rfl
  | cons u t =>
    rw [parseStrArray, jsonSkipWs_lbrack]
    simp only [encodeArrBody, encodeStrChars, List.cons_append, List.nil_append,
      List.append_assoc, List.singleton_append, jsonSkipWs_dquote]
    rw [parse_encodeBody]
    simp only []
    have hlen : t.length < (t.flatMap sepItemChars ++ (']' :: [])).length + 1 := by
      have h := length_le_flatMap_sepItemChars t
      simp only [List.length_append, List.length_cons, List.length_nil]
      omega
    rw [parseMoreItems_encode t _ [] hlen]
    simp only [Option.map_some', String_mk_data]

/-- `json.loads` inverts `json.dumps` on lists of strings. -/
theorem loadsStrList_dumpsStrList (l : List String) :
    loadsStrList (dumpsStrList l) = some l := by
  rw [loadsStrList, dumpsStrList]
  show (match parseStrArray ('[' :: (encodeArrBody l ++ [ ']' ])) with
    | some (l, rest) => if jsonSkipWs rest = [] then some l else none
    | none => none) = some l
  rw [parseStrArray_dumps]
  simp [jsonSkipWs_nil]

/-! ## Profile store (src/database.py) -/

/-- One row of the `user_profiles` table (the columns the claims
concern); the two list-valued fields are TEXT columns holding JSON. -/
structure StoredRow where
  name : String
  email : String
  timezone : String
  preferred_notification_times : String
  content_preferences : String
deriving DecidableEq

/-- The table: rows keyed by the primary key `user_id`. -/
abbrev UserDB := List (String × StoredRow)

/-- Input profile dictionary of `save_user_profile`; `timezone` may be
absent (the code then stores the default `"UTC"`). -/
structure ProfileIn where
  user_id : String
  name : String
  email : String
  timezone : Option String
  preferred_notification_times : List String
  content_preferences : List String
deriving DecidableEq

/-- Output dictionary of `get_user_profile` (the fields the claims
concern, with the two JSON columns parsed back to lists). -/
structure ProfileOut where
  name : String
  email : String
  timezone : String
  preferred_notification_times : List String
  content_preferences : List String
deriving DecidableEq

/-- `save_user_profile` (src/database.py, lines 85-156): serializes the
two list fields with `json.dumps`, then INSERTs a new row or UPDATEs the
existing row for `user_id`.  The UNIQUE constraint on `email` makes the
statement raise (and the function return False with the table unchanged)
when a different user already has that email. -/
def savedRow (p : ProfileIn) : StoredRow :=
  { name := p.name
    email := p.email
    timezone := p.timezone.getD "UTC"
    preferred_notification_times := dumpsStrList p.preferred_notification_times
    content_preferences := dumpsStrList p.content_preferences }

def save_user_profile (db : UserDB) (p : ProfileIn) : UserDB × Bool :=
  match db.lookup p.user_id with
  | some _ =>
    if db.any fun e => decide (e.1 ≠ p.user_id) && decide (e.2.email = p.email) then
      (db, false)
    else
      (db.map fun e => if e.1 = p.user_id then (e.1, savedRow p) else e, true)
  | none =>
    if db.any fun e => decide (e.2.email = p.email) then
      (db, false)
    else
      (db ++ [(p.user_id, savedRow p)], true)

/-- `get_user_profile` (src/database.py, lines 159-199): SELECT by
`user_id`, then `json.loads(column or "[]")` on the two list columns;
a missing row — or any exception, e.g. a JSON parse failure — yields
None, never a partial profile. -/
def get_user_profile (db : UserDB) (user_id : String) : Option ProfileOut :=
  match db.lookup user_id with
  | none => none
  | some row =>
    match loadsStrList (if row.preferred_notification_times = "" then "[]"
        else row.preferred_notification_times),
      loadsStrList (if row.content_preferences = "" then "[]"
        else row.content_preferences) with
    | some nt, some cp =>
      some { name := row.name
             email := row.email
             timezone := row.timezone
             preferred_notification_times := nt
             content_preferences := cp }
    | _, _ => none

theorem dumpsStrList_ne_empty (l : List String) : dumpsStrList l ≠ "" := by
  intro h
  have hd := congrArg String.data h
  simp [dumpsStrList] at hd

theorem lookup_cons (a : String) (e : String × StoredRow) (t : UserDB) :
    List.lookup a (e :: t) = if a = e.1 then some e.2 else List.lookup a t := by
  rcases e with ⟨b, v⟩
  by_cases h : a = b
  · have hb : (a == b) = true := beq_iff_eq.mpr h
    rw [List.lookup, hb, if_pos h]
  · have hb : (a == b) = false := beq_eq_false_iff_ne.mpr h
    rw [List.lookup, hb, if_neg h]

theorem lookup_map_update (k : String) (row : StoredRow) (db : UserDB) :
    (db.map fun e => if e.1 = k then (e.1, row) else e).lookup k =
      (db.lookup k).map fun _ => row := by
  induction db with
  | nil => rfl
  | cons e t ih =>
    rw [List.map_cons]
    by_cases h : e.1 = k
    · rw [if_pos h, lookup_cons, lookup_cons, if_pos h.symm, if_pos h.symm]
      rfl
    · have hk : ¬ k = e.1 := fun hk => h hk.symm
      rw [if_neg h, lookup_cons, lookup_cons, if_neg hk, if_neg hk, ih]

theorem lookup_append_single (k : String) (row : StoredRow) (db : UserDB)
    (h : db.lookup k = none) :
    (db ++ [(k, row)]).lookup k = some row := by
  induction db with
  | nil => simp [lookup_cons]
  | cons e t ih =>
    rw [lookup_cons] at h
    by_cases hk : k = e.1
    · rw [if_pos hk] at h
      exact absurd h (by simp)
    · rw [if_neg hk] at h
      rw [List.cons_append, lookup_cons, if_neg hk]
      exact ih h

theorem lookup_append_single_other (k uid : String) (row : StoredRow) (db : UserDB)
    (h : db.lookup uid = none) (hne : k ≠ uid) :
    (db ++ [(k, row)]).lookup uid = none := by
  induction db with
  | nil =>
    have huk : ¬ uid = k := fun hh => hne hh.symm
    simp [lookup_cons, huk]
  | cons e t ih =>
    rw [lookup_cons] at h
    by_cases hk : uid = e.1
    · rw [if_pos hk] at h
      exact absurd h (by simp)
    · rw [if_neg hk] at h
      rw [List.cons_append, lookup_cons, if_neg hk]
      exact ih h

theorem lookup_map_update_none (k uid : String) (row : StoredRow) (db : UserDB)
    (h : db.lookup uid = none) :
    (db.map fun e => if e.1 = k then (e.1, row) else e).lookup uid = none := by
  induction db with
  | nil => rfl
  | cons e t ih =>
    rw [lookup_cons] at h
    by_cases hk : uid = e.1
    · rw [if_pos hk] at h
      exact absurd h (by simp)
    · rw [if_neg hk] at h
      rw [List.map_cons]
      by_cases he : e.1 = k
      · rw [if_pos he, lookup_cons, if_neg (by simpa [he] using hk)]
        exact ih h
      · rw [if_neg he, lookup_cons, if_neg hk]
        exact ih h

theorem save_true_lookup (db : UserDB) (p : ProfileIn)
    (h : (save_user_profile db p).2 = true) :
    ((save_user_profile db p).1).lookup p.user_id = some (savedRow p) := by
  unfold save_user_profile at h ⊢
  rcases hl : db.lookup p.user_id with _ | r0 <;> rw [hl] at h
  · by_cases hany : (db.any fun e => decide (e.2.email = p.email)) = true
    · rw [if_pos hany] at h
      exact Bool.noConfusion h
    · rw [if_neg hany]
      exact lookup_append_single _ _ _ hl
  · by_cases hany :
      (db.any fun e => decide (e.1 ≠ p.user_id) && decide (e.2.email = p.email)) = true
    · rw [if_pos hany] at h
      exact Bool.noConfusion h
    · rw [if_neg hany]
      show (db.map fun e => if e.1 = p.user_id then (e.1, savedRow p) else e).lookup p.user_id =
        some (savedRow p)
      rw [lookup_map_update, hl]
      rfl

theorem save_preserves_absent (db : UserDB) (p : ProfileIn) (uid : String)
    (hne : p.user_id ≠ uid) (h : db.lookup uid = none) :
    ((save_user_profile db p).1).lookup uid = none := by
  unfold save_user_profile
  rcases hl : db.lookup p.user_id with _ | r0
  · by_cases hany : (db.any fun e => decide (e.2.email = p.email)) = true
    · rw [if_pos hany]
      exact h
    · rw [if_neg hany]
      exact lookup_append_single_other _ _ _ _ h hne
  · by_cases hany :
      (db.any fun e => decide (e.1 ≠ p.user_id) && decide (e.2.email = p.email)) = true
    · rw [if_pos hany]
      exact h
    · rw [if_neg hany]
      exact lookup_map_update_none _ _ _ _ h

theorem get_after_save (db : UserDB) (p : ProfileIn)
    (h : (save_user_profile db p).2 = true) :
    get_user_profile (save_user_profile db p).1 p.user_id =
      some { name := p.name
             email := p.email
             timezone := p.timezone.getD "UTC"
             preferred_notification_times := p.preferred_notification_times
             content_preferences := p.content_preferences } := by
  have hrow := save_true_lookup db p h
  unfold get_user_profile
  rw [hrow]
  simp only [savedRow]
  rw [if_neg (dumpsStrList_ne_empty _), if_neg (dumpsStrList_ne_empty _),
    loadsStrList_dumpsStrList, loadsStrList_dumpsStrList]

/-- Apply a sequence of profile saves to a table. -/
def applySaves (ops : List ProfileIn) (db : UserDB) : UserDB :=
  ops.foldl (fun d q => (save_user_profile d q).1) db

theorem applySaves_absent (uid : String) :
    ∀ (ops : List ProfileIn) (db : UserDB), (∀ q ∈ ops, q.user_id ≠ uid) →
      db.lookup uid = none → (applySaves ops db).lookup uid = none := by
  intro ops
  induction ops with
  | nil =>
    intro db _ h
    exact h
  | cons q t ih =>
    intro db hops h
    exact ih ((save_user_profile db q).1)
      (fun r hr => hops r (List.mem_cons_of_mem _ hr))
      (save_preserves_absent db q uid (hops q (List.mem_cons_self q t)) h)

theorem get_none_of_absent (db : UserDB) (uid : String) (h : db.lookup uid = none) :
    get_user_profile db uid = none := by
  unfold get_user_profile
  rw [h]

/-! ## Claim C10 -/

/-- C10: profile persistence round-trips: whenever `save_user_profile`
returns True, a subsequent `get_user_profile` with the same `user_id`
returns the saved `name`, `email` and `timezone` and — through an exact
`json.dumps`/`json.loads` round-trip — the very lists
`preferred_notification_times` and `content_preferences` that were
saved; and `get_user_profile` returns None for any `user_id` never
saved. -/
theorem c10_profile_roundtrip :
    (∀ (db : UserDB) (p : ProfileIn), (save_user_profile db p).2 = true →
      get_user_profile (save_user_profile db p).1 p.user_id =
        some { name := p.name
               email := p.email
               timezone := p.timezone.getD "UTC"
               preferred_notification_times := p.preferred_notification_times
               content_preferences := p.content_preferences }) ∧
    (∀ (ops : List ProfileIn) (uid : String), (∀ q ∈ ops, q.user_id ≠ uid) →
      get_user_profile (applySaves ops []) uid = none) :=
  ⟨fun db p h => get_after_save db p h,
    fun ops uid hops =>
      get_none_of_absent _ uid (applySaves_absent uid ops [] hops rfl)⟩

/-- The witness profile, with list values exercising the JSON escapes. -/
def c10Profile : ProfileIn :=
  { user_id := "alice"
    name := "Alice \"A\" Müller"
    email := "alice@example.com"
    timezone := none
    preferred_notification_times := ["09:00", "21:30"]
    content_preferences := ["tech", "crypto\n📈"] }

/-- A second profile under a different user id. -/
def c10Other : ProfileIn :=
  { user_id := "bob"
    name := "Bob"
    email := "bob@example.com"
    timezone := some "Europe/Berlin"
    preferred_notification_times := []
    content_preferences := ["macro"] }

/-- Witness for `c10_profile_roundtrip` at concrete inputs. -/
theorem c10_witness :
    (save_user_profile [] c10Profile).2 = true ∧
    get_user_profile (save_user_profile [] c10Profile).1 "alice" =
      some { name := "Alice \"A\" Müller"
             email := "alice@example.com"
             timezone := "UTC"
             preferred_notification_times := ["09:00", "21:30"]
             content_preferences := ["tech", "crypto\n📈"] } ∧
    ((∀ q ∈ [c10Profile, c10Other], q.user_id ≠ "carol") ∧
      get_user_profile (applySaves [c10Profile, c10Other] []) "carol" = none) :=
  ⟨rfl, c10_profile_roundtrip.1 [] c10Profile rfl,
    by decide,
    c10_profile_roundtrip.2 [c10Profile, c10Other] "carol" (by decide)⟩
